import Mathlib

/-!
Shallow embedding of the airbnb-organizer core: the Brazilian rental tax
calculator (`src/services/BrazilianRentalTaxCalculator.ts`), the monthly
aggregation utilities (`src/utils/taxCalculations.ts`), the paid-months store
slice (`src/store/taxesSlice.ts`), the Google-Sheets row parsing layer
(`src/services/GoogleSheetsService.ts`) and the sync hook
(`src/hooks/useDataSync.ts`).

JavaScript `number` values are modelled as exact rationals (`ℚ`); all the
constants and comparisons the verified properties touch are exactly
representable, so the rational model agrees with IEEE-754 on them.
-/

namespace Airbnb

/-- JavaScript `Math.round`: round half toward positive infinity. -/
def jsRound (q : ℚ) : ℤ := ⌊q + 1/2⌋

/-! ## BrazilianRentalTaxCalculator -/

/-- One entry of `TAX_BRACKETS`; `maxIncome = none` models `Infinity`. -/
structure TaxBracket where
  maxIncome : Option ℚ
  rate : ℚ
  deduction : ℚ
deriving DecidableEq, Repr

/-- `BrazilianRentalTaxCalculator.DEPENDENT_DEDUCTION`. -/
def DEPENDENT_DEDUCTION : ℚ := 189.59

/-- `BrazilianRentalTaxCalculator.SIMPLIFIED_DEDUCTION`. -/
def SIMPLIFIED_DEDUCTION : ℚ := 607.20

/-- `BrazilianRentalTaxCalculator.TAX_BRACKETS`, in source order. -/
def TAX_BRACKETS : List TaxBracket :=
  [ { maxIncome := some 2428.81, rate := 0,     deduction := 182.16 },
    { maxIncome := some 2826.66, rate := 0.075, deduction := 182.16 },
    { maxIncome := some 3751.05, rate := 0.15,  deduction := 394.16 },
    { maxIncome := some 4664.68, rate := 0.225, deduction := 675.49 },
    { maxIncome := none,         rate := 0.275, deduction := 908.73 } ]

/-- The predicate of `findTaxBracket`'s `find`: `taxableIncome < bracket.maxIncome`
(every number is `< Infinity`). -/
def bracketMatches (taxableIncome : ℚ) (b : TaxBracket) : Bool :=
  match b.maxIncome with
  | some m => decide (taxableIncome < m)
  | none => true

/-- `findTaxBracket`: first bracket of `TAX_BRACKETS` whose `maxIncome` exceeds
the income, defaulting to the last bracket. -/
def findTaxBracket (taxableIncome : ℚ) : TaxBracket :=
  (TAX_BRACKETS.find? (bracketMatches taxableIncome)).getD
    (TAX_BRACKETS.getLastD { maxIncome := none, rate := 0, deduction := 0 })

/-- Return value of `calculateTax`. -/
structure TaxResult where
  deduction : ℚ
  taxableIncome : ℚ
  taxRate : ℚ
  taxOwed : ℚ
deriving DecidableEq, Repr

/-- `BrazilianRentalTaxCalculator.calculateTax`. `dependents` is a count
(pre-validated non-negative integer per the calculator's contract). -/
def calculateTax (liquidIncome : ℚ) (dependents : ℕ) : TaxResult :=
  let dependentDeduction := (dependents : ℚ) * DEPENDENT_DEDUCTION
  let deduction := max dependentDeduction SIMPLIFIED_DEDUCTION
  let taxableIncome := max (liquidIncome - deduction) 0
  let bracket := findTaxBracket taxableIncome
  let taxBeforeFloor := taxableIncome * bracket.rate - bracket.deduction
  let taxOwed := max taxBeforeFloor 0
  { deduction := deduction
    taxableIncome := taxableIncome
    taxRate := bracket.rate
    taxOwed := (jsRound (taxOwed * 100) : ℚ) / 100 }

/-! ## Date and string model

JS strings are embedded as `List Char`; a JS `Date`'s local calendar fields as
a record. `getFullYear`/`getMonth` are the `year`/`month0` projections. -/

/-- Local-calendar view of a JS `Date`: `year = getFullYear()`,
`month0 = getMonth()` (0-based), `day = getDate()`. -/
structure JSDate where
  year : ℤ
  month0 : ℤ
  day : ℤ
deriving DecidableEq, Repr

/-- Decimal digit character for `n < 10`. -/
def digitChar (n : ℕ) : Char :=
  match n with
  | 0 => '0' | 1 => '1' | 2 => '2' | 3 => '3' | 4 => '4'
  | 5 => '5' | 6 => '6' | 7 => '7' | 8 => '8' | _ => '9'

/-- Numeric value of a digit character. -/
def digitVal (c : Char) : ℕ := c.toNat - 48

/-- Whether a character is a decimal digit. -/
def isDigitChar (c : Char) : Bool := 48 ≤ c.toNat && c.toNat ≤ 57

/-- Decimal representation of a natural number (JS `String(n)` for integers). -/
def natChars (n : ℕ) : List Char :=
  if _h : n < 10 then [digitChar n]
  else natChars (n / 10) ++ [digitChar (n % 10)]
decreasing_by exact Nat.div_lt_self (by omega) (by omega)

/-- JS `String(i)` for an integer-valued number. -/
def intChars (i : ℤ) : List Char :=
  if i < 0 then '-' :: natChars i.natAbs else natChars i.toNat

/-- Value of a digit string read left to right. -/
def digitsToNat (cs : List Char) : ℕ :=
  cs.foldl (fun a c => 10 * a + digitVal c) 0

/-- `String(n).padStart(2, '0')`. -/
def padStart2 (cs : List Char) : List Char :=
  if cs.length < 2 then List.replicate (2 - cs.length) '0' ++ cs else cs

/-- JS `s.split('-')`: the (always nonempty) list of chunks between dashes. -/
def splitOnDash : List Char → List (List Char)
  | [] => [[]]
  | c :: cs =>
    if c = '-' then [] :: splitOnDash cs
    else (c :: (splitOnDash cs).headI) :: (splitOnDash cs).tail

/-- Truncation toward zero (JS `ToIntegerOrInfinity` on a finite number). -/
def jsTrunc (q : ℚ) : ℤ := if q < 0 then ⌈q⌉ else ⌊q⌋

/-- Shared digit layout of a JS decimal numeral: the value of an optionally
signed digit run with an optional fractional digit run. -/
def signedVal (neg : Bool) (ip f : List Char) : ℚ :=
  (if neg then -1 else 1) * ((digitsToNat ip : ℚ) + (digitsToNat f : ℚ) / 10 ^ f.length)

/-- JS `Number(s)` restricted to optional sign plus decimal digits with an
optional fractional part, the only shapes the verified inputs take (`none`
models `NaN`; the empty or all-blank string converts to `0`). -/
def jsNumber (cs : List Char) : Option ℚ :=
  let cs := cs.dropWhile (fun c => c = ' ')
  if cs.isEmpty then some 0
  else
    let neg := cs.headI = '-'
    let cs := if cs.headI = '-' ∨ cs.headI = '+' then cs.tail else cs
    let ip := cs.takeWhile isDigitChar
    let rest := cs.dropWhile isDigitChar
    if rest.isEmpty then
      if ip.isEmpty then none else some (signedVal neg ip [])
    else if rest.headI = '.' ∧ rest.tail.all isDigitChar ∧
        ¬(ip.isEmpty ∧ rest.tail.isEmpty) then
      some (signedVal neg ip rest.tail)
    else none

/-- `new Date(y, m, 1)`: years 0–99 are remapped to 1900–1999 and month
overflow carries into the year (day 1 is always in range, so no day carry). -/
def jsNewDateMonth (y m : ℤ) : JSDate :=
  let y1 := if 0 ≤ y ∧ y ≤ 99 then y + 1900 else y
  { year := y1 + m.fdiv 12, month0 := m.emod 12, day := 1 }

/-- `formatMonth` (src/utils/taxCalculations.ts): local year, dash, 0-padded
1-based local month. -/
def formatMonth (date : JSDate) : List Char :=
  intChars date.year ++ '-' :: padStart2 (intChars (date.month0 + 1))

/-- `parseMonth` (src/utils/taxCalculations.ts): split on `-`, convert the
first two parts with `Number`, build `new Date(year, month - 1, 1)`.
`none` models an Invalid Date (a `NaN` component). -/
def parseMonth (monthStr : List Char) : Option JSDate :=
  let parts := (splitOnDash monthStr).map jsNumber
  match parts.getD 0 none, parts.getD 1 none with
  | some y, some m => some (jsNewDateMonth (jsTrunc y) (jsTrunc (m - 1)))
  | _, _ => none

/-! ## Data model (src/types) -/

/-- `Reservation` (types.ts). -/
structure Reservation where
  id : List Char
  date : JSDate
  nights : ℤ
  total : ℚ
  ownerAmount : ℚ
  adminFee : ℚ
deriving DecidableEq, Repr

/-- `Expense` (types.ts); `category`/`notes` are optional strings. -/
structure Expense where
  id : List Char
  date : JSDate
  amount : ℚ
  category : Option (List Char)
  notes : Option (List Char)
deriving DecidableEq, Repr

/-- `AppSettings` (types.ts). -/
structure AppSettings where
  dependents : ℤ
  ownerSplit : ℚ
  adminSplit : ℚ
deriving DecidableEq, Repr

/-- `MonthlyTaxSummary` (types.ts). -/
structure MonthlyTaxSummary where
  month : List Char
  totalIncome : ℚ
  totalDeductions : ℚ
  liquidIncome : ℚ
  deduction : ℚ
  taxableIncome : ℚ
  taxRate : ℚ
  taxOwed : ℚ
  profit : ℚ
  isPaid : Bool
deriving DecidableEq, Repr

/-! ## Monthly aggregation (src/utils/taxCalculations.ts) -/

/-- `calculateMonthlyTax`: sums owner income and expenses for the month's
records, delegates to the Brazilian calculator, and derives the profit. -/
def calculateMonthlyTax (month : List Char) (reservations : List Reservation)
    (expenses : List Expense) (dependents : ℕ) (isPaid : Bool) : MonthlyTaxSummary :=
  let totalIncome := reservations.foldl (fun sum r => sum + r.ownerAmount) 0
  let totalDeductions := expenses.foldl (fun sum e => sum + e.amount) 0
  let liquidIncome := totalIncome - totalDeductions
  let taxCalculation := calculateTax liquidIncome dependents
  let profit := liquidIncome - taxCalculation.taxOwed
  { month := month
    totalIncome := totalIncome
    totalDeductions := totalDeductions
    liquidIncome := liquidIncome
    deduction := taxCalculation.deduction
    taxableIncome := taxCalculation.taxableIncome
    taxRate := taxCalculation.taxRate
    taxOwed := taxCalculation.taxOwed
    profit := profit
    isPaid := isPaid }

/-- JS `Set` insertion: add at the end unless already present. -/
def setInsert (seen : List (List Char)) (x : List Char) : List (List Char) :=
  if x ∈ seen then seen else seen ++ [x]

/-- Lexicographic `≤` on JS strings by code unit, the default `Array.sort`
comparison for string elements. -/
def lexLe (a b : List Char) : Bool :=
  match a, b with
  | [], _ => true
  | _ :: _, [] => false
  | c :: cs, d :: ds => if c = d then lexLe cs ds else decide (c < d)

/-- `getAllMonths`: the set (insertion order) of month keys of all reservation
and expense dates, sorted ascending then reversed (most recent first). -/
def getAllMonths (reservations : List Reservation) (expenses : List Expense) :
    List (List Char) :=
  let months := (reservations.map (fun r => formatMonth r.date) ++
    expenses.map (fun e => formatMonth e.date)).foldl setInsert []
  (months.mergeSort (fun a b => lexLe a b)).reverse

/-- Insert a record under its month key, preserving per-month order
(`grouped.get(month).push(...)`). -/
def groupInsert {α : Type} (k : List Char) (x : α)
    (acc : List (List Char × List α)) : List (List Char × List α) :=
  match acc with
  | [] => [(k, [x])]
  | (k', xs) :: rest =>
    if k' = k then (k', xs ++ [x]) :: rest else (k', xs) :: groupInsert k x rest

/-- `groupReservationsByMonth` as an association list in insertion order. -/
def groupReservationsByMonth (reservations : List Reservation) :
    List (List Char × List Reservation) :=
  reservations.foldl (fun acc r => groupInsert (formatMonth r.date) r acc) []

/-- `groupExpensesByMonth` as an association list in insertion order. -/
def groupExpensesByMonth (expenses : List Expense) :
    List (List Char × List Expense) :=
  expenses.foldl (fun acc e => groupInsert (formatMonth e.date) e acc) []

/-- `map.get(month) || []`. -/
def mapGetD {α : Type} (m : List (List Char × List α)) (k : List Char) : List α :=
  ((m.find? (fun p => p.1 = k)).map Prod.snd).getD []

/-! ## Paid-months slice (src/store/taxesSlice.ts) -/

/-- `markMonthAsPaid`: push the month unless already present. -/
def markMonthAsPaid (month : List Char) (paidMonths : List (List Char)) :
    List (List Char) :=
  if month ∈ paidMonths then paidMonths else paidMonths ++ [month]

/-- `markMonthAsUnpaid`: keep every month different from the payload. -/
def markMonthAsUnpaid (month : List Char) (paidMonths : List (List Char)) :
    List (List Char) :=
  paidMonths.filter (fun m => m ≠ month)

/-! ## Sheet row parsing (src/services/GoogleSheetsService.ts)

A remote cell (`UNFORMATTED_VALUE` render) is a string, a number, a boolean,
or absent. A row is a list of cells; absent trailing cells read as
`undefined` (`Cell.missing`). -/

/-- A cell of a remote row. -/
inductive Cell where
  | missing
  | num (q : ℚ)
  | str (s : List Char)
  | boolean (b : Bool)
deriving DecidableEq, Repr

/-- JS falsiness of a cell value (`!value`). -/
def jsFalsy : Cell → Bool
  | Cell.missing => true
  | Cell.num q => decide (q = 0)
  | Cell.str s => s.isEmpty
  | Cell.boolean b => !b

/-- JS `parseFloat` on a string: optional sign then decimal digits with an
optional fractional part, longest prefix; `none` models `NaN`. Exponent
suffixes and the `Infinity` literals are outside the cell shapes in scope. -/
def jsParseFloat (cs : List Char) : Option ℚ :=
  let cs := cs.dropWhile (fun c => c = ' ')
  let neg := cs.headI = '-'
  let cs := if cs.headI = '-' ∨ cs.headI = '+' then cs.tail else cs
  let ip := cs.takeWhile isDigitChar
  let rest := cs.dropWhile isDigitChar
  let fp :=
    if rest.headI = '.' then rest.tail.takeWhile isDigitChar else []
  if ip.isEmpty ∧ fp.isEmpty then none
  else some (signedVal neg ip fp)

/-- `parseFloat(value)` on a cell: a number is stringified and re-parsed,
which is the identity on finite decimals; `undefined` and booleans give `NaN`. -/
def jsParseFloatCell : Cell → Option ℚ
  | Cell.num q => some q
  | Cell.str s => jsParseFloat s
  | Cell.missing => none
  | Cell.boolean _ => none

/-- JS `parseInt` on a string (radix 10): optional sign then a leading digit
run; `none` models `NaN`. -/
def jsParseInt (cs : List Char) : Option ℤ :=
  let cs := cs.dropWhile (fun c => c = ' ')
  let neg := cs.headI = '-'
  let cs := if cs.headI = '-' ∨ cs.headI = '+' then cs.tail else cs
  let ip := cs.takeWhile isDigitChar
  if ip.isEmpty then none
  else some ((if neg then -1 else 1) * (digitsToNat ip : ℤ))

/-- `parseInt(value)` on a cell: numbers are stringified first, so a finite
decimal truncates toward zero. -/
def jsParseIntCell : Cell → Option ℤ
  | Cell.num q => some (jsTrunc q)
  | Cell.str s => jsParseInt s
  | Cell.missing => none
  | Cell.boolean _ => none

/-- `x || 0` on a parse result (`NaN` and `0` both give `0`). -/
def orZeroQ (o : Option ℚ) : ℚ := o.getD 0

/-- `parseInt(...) || 0`. -/
def orZeroZ (o : Option ℤ) : ℤ := o.getD 0

/-- `x || d` on a parse result: `NaN` and `0` fall back to the default. -/
def orDefault (o : Option ℚ) (d : ℚ) : ℚ :=
  match o with
  | none => d
  | some q => if q = 0 then d else q

/-- Result of `parseDateValue`: either a civil date built by `parseLocalDate`
(`new Date(y, m - 1, d)`, kept as constructor arguments since no verified
property inspects the calendar fields) or an offset in milliseconds from the
local Excel epoch 1899-12-30 built by `excelSerialToDate`. -/
inductive DateVal where
  | civil (y m0 d : ℤ)
  | serialMs (ms : ℚ)
deriving DecidableEq, Repr

/-- `excelSerialToDate`: epoch plus `serial * 24 * 60 * 60 * 1000` ms. -/
def excelSerialToDate (serial : ℚ) : DateVal :=
  DateVal.serialMs (serial * (24 * 60 * 60 * 1000))

/-- Whether a string matches `/^\d{4}-\d{2}-\d{2}$/`. -/
def matchesYMD (cs : List Char) : Bool :=
  match cs with
  | [a, b, c, d, h1, e, f, h2, g, i] =>
    [a, b, c, d, e, f, g, i].all isDigitChar && h1 = '-' && h2 = '-'
  | _ => false

/-- `parseLocalDate`: split `YYYY-MM-DD` on `-` and build
`new Date(year, month - 1, day)`. Only called on regex-validated strings, so
the three parts are digit runs. -/
def parseLocalDate (cs : List Char) : DateVal :=
  let parts := (splitOnDash cs).map (fun p => digitsToNat p)
  DateVal.civil (parts.getD 0 0) ((parts.getD 1 0 : ℤ) - 1) (parts.getD 2 0)

/-- `parseDateValue`: `null` for falsy cells; numbers are Excel serials;
strings are ISO `YYYY-MM-DD` or, failing that, a positive numeric string
taken as a serial; anything else is `null` (`none`). -/
def parseDateValue (value : Cell) : Option DateVal :=
  if jsFalsy value then none
  else
    match value with
    | Cell.num q => some (excelSerialToDate q)
    | _ =>
      let str :=
        match value with
        | Cell.str s => s
        | Cell.boolean true => ['t', 'r', 'u', 'e']
        | Cell.boolean false => ['f', 'a', 'l', 's', 'e']
        | _ => []
      if matchesYMD str then some (parseLocalDate str)
      else
        match jsParseFloat str with
        | some asNumber => if 0 < asNumber then some (excelSerialToDate asNumber) else none
        | none => none

/-- A reservation as read from a sheet row (`readReservations` builds the
date from the raw cell, so its `date` is a `DateVal`). -/
structure SheetReservation where
  id : List Char
  date : DateVal
  nights : ℤ
  total : ℚ
  ownerAmount : ℚ
  adminFee : ℚ
deriving DecidableEq, Repr

/-- An expense as read from a sheet row. -/
structure SheetExpense where
  id : List Char
  date : DateVal
  amount : ℚ
  category : Cell
  notes : Cell
deriving DecidableEq, Repr

/-- The literal prefix `reservation-` of generated reservation ids. -/
def reservationIdPrefix : List Char :=
  ['r', 'e', 's', 'e', 'r', 'v', 'a', 't', 'i', 'o', 'n', '-']

/-- The reservation `readReservations` builds from row `index` once the date
cell parsed. -/
def buildReservation (index : ℕ) (row : List Cell) (date : DateVal) :
    SheetReservation :=
  { id := reservationIdPrefix ++ natChars index
    date := date
    nights := orZeroZ (jsParseIntCell (row.getD 1 Cell.missing))
    total := orZeroQ (jsParseFloatCell (row.getD 2 Cell.missing))
    ownerAmount := orZeroQ (jsParseFloatCell (row.getD 3 Cell.missing))
    adminFee := orZeroQ (jsParseFloatCell (row.getD 4 Cell.missing)) }

/-- `readReservations` on the data rows of the range: map each row to a
reservation or `null` depending on the date parse, then drop the nulls. -/
def readReservations (rows : List (List Cell)) : List SheetReservation :=
  ((rows.enum.map (fun p =>
    match parseDateValue (p.2.getD 0 Cell.missing) with
    | none => none
    | some date => some (buildReservation p.1 p.2 date))).filterMap id)

/-- The literal prefix `expense-` of generated expense ids. -/
def expenseIdPrefix : List Char := ['e', 'x', 'p', 'e', 'n', 's', 'e', '-']

/-- The expense `readExpenses` builds from row `index` once the date cell
parsed. -/
def buildExpense (index : ℕ) (row : List Cell) (date : DateVal) : SheetExpense :=
  { id := expenseIdPrefix ++ natChars index
    date := date
    amount := orZeroQ (jsParseFloatCell (row.getD 1 Cell.missing))
    category := row.getD 2 Cell.missing
    notes := row.getD 3 Cell.missing }

/-- `readExpenses` on the data rows of the range. -/
def readExpenses (rows : List (List Cell)) : List SheetExpense :=
  ((rows.enum.map (fun p =>
    match parseDateValue (p.2.getD 0 Cell.missing) with
    | none => none
    | some date => some (buildExpense p.1 p.2 date))).filterMap id)

/-- Defaults `readSettings` starts from. -/
def defaultSettings : AppSettings :=
  { dependents := 0, ownerSplit := 0.7, adminSplit := 0.3 }

/-- The settings key `dependents`. -/
def dependentsKey : List Char := ['d', 'e', 'p', 'e', 'n', 'd', 'e', 'n', 't', 's']

/-- The settings key `owner_split`. -/
def ownerSplitKey : List Char := ['o', 'w', 'n', 'e', 'r', '_', 's', 'p', 'l', 'i', 't']

/-- The settings key `admin_split`. -/
def adminSplitKey : List Char := ['a', 'd', 'm', 'i', 'n', '_', 's', 'p', 'l', 'i', 't']

/-- One iteration of `readSettings`' `forEach` `switch` over `[key, value]`. -/
def applySettingsRow (settings : AppSettings) (row : List Cell) : AppSettings :=
  let key := row.getD 0 Cell.missing
  let value := row.getD 1 Cell.missing
  if key = Cell.str dependentsKey then
    { settings with dependents := orZeroZ (jsParseIntCell value) }
  else if key = Cell.str ownerSplitKey then
    { settings with ownerSplit := orDefault (jsParseFloatCell value) 0.7 }
  else if key = Cell.str adminSplitKey then
    { settings with adminSplit := orDefault (jsParseFloatCell value) 0.3 }
  else settings

/-- `readSettings` on the data rows of the settings range. -/
def readSettings (rows : List (List Cell)) : AppSettings :=
  rows.foldl applySettingsRow defaultSettings

/-! ## Tax-row persistence (useDataSync.saveTaxData and
GoogleSheetsService.writeTaxData) modelled as the list of remote operations
they issue. -/

/-- One row of the remote tax range. -/
structure TaxRow where
  month : List Char
  income : ℚ
  deductions : ℚ
  taxRate : ℚ
  taxOwed : ℚ
  profit : ℚ
  isPaid : Bool
deriving DecidableEq, Repr

/-- A remote operation on the tax range. -/
inductive RemoteOp where
  | clearTaxRange
  | writeTaxRange (rows : List TaxRow)
deriving DecidableEq, Repr

/-- `writeTaxData`: always clear the range, then write the rows when there
are any. -/
def writeTaxData (taxData : List TaxRow) : List RemoteOp :=
  RemoteOp.clearTaxRange ::
    (if taxData.length > 0 then [RemoteOp.writeTaxRange taxData] else [])

/-- Whether a month key matches `/^\d{4}-\d{2}$/`. -/
def matchesYM (cs : List Char) : Bool :=
  match cs with
  | [a, b, c, d, h1, e, f] => [a, b, c, d, e, f].all isDigitChar && h1 = '-'
  | _ => false

/-- The tax row `saveTaxData` computes for one month. -/
def taxRowFor (month : List Char) (reservationsByMonth : List (List Char × List Reservation))
    (expensesByMonth : List (List Char × List Expense)) (dependents : ℕ)
    (paidMonths : List (List Char)) : TaxRow :=
  let monthReservations := mapGetD reservationsByMonth month
  let monthExpenses := mapGetD expensesByMonth month
  let isPaid := decide (month ∈ paidMonths)
  let monthlyTax := calculateMonthlyTax month monthReservations monthExpenses dependents isPaid
  { month := monthlyTax.month
    income := monthlyTax.totalIncome
    deductions := monthlyTax.totalDeductions
    taxRate := monthlyTax.taxRate
    taxOwed := monthlyTax.taxOwed
    profit := monthlyTax.profit
    isPaid := monthlyTax.isPaid }

/-- `saveTaxData` in the signed-in state: the remote operations it issues.
With no month holding data it returns before touching the remote store. -/
def saveTaxData (reservations : List Reservation) (expenses : List Expense)
    (dependents : ℕ) (paidMonths : List (List Char)) : List RemoteOp :=
  let allMonths := getAllMonths reservations expenses
  if allMonths.length = 0 then []
  else
    let reservationsByMonth := groupReservationsByMonth reservations
    let expensesByMonth := groupExpensesByMonth expenses
    let taxData := (allMonths.filter (fun m => !m.isEmpty && matchesYM m)).map
      (fun m => taxRowFor m reservationsByMonth expensesByMonth dependents paidMonths)
    if taxData.length > 0 then writeTaxData taxData else []

/-! ## Debounced autosave scheduling (useDataSync)

The hook registers five debounced autosaves: reservations →
`saveReservations`, expenses → `saveExpenses`, settings → `saveSettings`,
paidMonths → `saveTaxData`, and `taxDependencies` (reservation ids, expense
ids and `settings.dependents`) → `saveTaxData` again. React re-runs an
effect — and thus (re)schedules its save — when an entry of its dependency
array changed under `Object.is` since the previous render. The Redux slices
are updated immutably, so a slice's identity changes exactly with its value,
and the first three autosaves re-run precisely when their slice changed
(their memoized `saveCallback` dependency changes with the same slice). The
`taxDependencies` array, however, is rebuilt in the hook body on every
render and is never `Object.is`-equal to its predecessor, so the fifth
autosave re-runs — and a tax-row write is scheduled — on every render, i.e.
whenever any slice the hook observes changed at all. -/

/-- The in-memory collections the hook observes. -/
structure StoreState where
  reservations : List Reservation
  expenses : List Expense
  settings : AppSettings
  paidMonths : List (List Char)
deriving DecidableEq

/-- `taxDependencies`: reservation ids, expense ids and the dependents count
— the contents of the dependency array of the second `saveTaxData` autosave.
The array itself is freshly allocated on every render of the hook. -/
def taxDependencies (s : StoreState) : List (List Char) × List (List Char) × ℤ :=
  (s.reservations.map (fun r => r.id), s.expenses.map (fun e => e.id),
    s.settings.dependents)

/-- Which save callbacks get scheduled between two renders. -/
structure ScheduledSaves where
  reservations : Bool
  expenses : Bool
  settings : Bool
  tax : Bool
deriving DecidableEq, Repr

/-- The debounced saves (re)scheduled when the store changes from `prev` to
`cur` and the hook re-renders (signed in, sheet id known, no load in
progress). The tax-row write is rescheduled on every such render — its
`taxDependencies` dependency is a fresh array each render, so the effect's
`Object.is` comparison always fails — hence whenever any observed slice
changed; the paidMonths-keyed tax autosave is subsumed by this. -/
def scheduledSaves (prev cur : StoreState) : ScheduledSaves :=
  { reservations := decide (prev.reservations ≠ cur.reservations)
    expenses := decide (prev.expenses ≠ cur.expenses)
    settings := decide (prev.settings ≠ cur.settings)
    tax := decide (prev ≠ cur) }

/-! ## Read-lock suppression (useDebouncedAutoSave and loadData)

Event model of the debounce machinery: a `mutate c` event is a change of the
dependency value of collection `c`'s autosave effect — React first runs the
effect cleanup (`clearTimeout`, cancelling any pending timer for `c`), then
the effect body, which arms a new timer only when `isLoadingData.current` is
down. A `fire c` event is an armed timer elapsing: the save callback runs
unconditionally (it never rechecks the flag). `beginLoad`/`endLoad` are
`loadData` raising and lowering `isLoadingData.current`; they do not touch
timers. -/

/-- The four autosaved collections. -/
inductive Collection where
  | reservations
  | expenses
  | settings
  | tax
deriving DecidableEq, Repr

/-- State of the debounce machinery: the read-lock flag, the armed timer per
collection, and the log of dispatched saves, each tagged with the flag value
at dispatch time. -/
structure SyncState where
  loading : Bool
  pendRes : Bool
  pendExp : Bool
  pendSet : Bool
  pendTax : Bool
  dispatched : List (Collection × Bool)
deriving DecidableEq, Repr

/-- The armed-timer flag of a collection. -/
def SyncState.pending (s : SyncState) : Collection → Bool
  | Collection.reservations => s.pendRes
  | Collection.expenses => s.pendExp
  | Collection.settings => s.pendSet
  | Collection.tax => s.pendTax

/-- Overwrite the armed-timer flag of a collection. -/
def SyncState.setPending (s : SyncState) (c : Collection) (b : Bool) : SyncState :=
  match c with
  | Collection.reservations => { s with pendRes := b }
  | Collection.expenses => { s with pendExp := b }
  | Collection.settings => { s with pendSet := b }
  | Collection.tax => { s with pendTax := b }

/-- Events of the debounce machinery. -/
inductive SyncEvent where
  | mutate (c : Collection)
  | fire (c : Collection)
  | beginLoad
  | endLoad
deriving DecidableEq, Repr

/-- One step of the machinery. -/
def syncStep (s : SyncState) : SyncEvent → SyncState
  | SyncEvent.mutate c => s.setPending c (!s.loading)
  | SyncEvent.fire c =>
    if s.pending c then
      { s.setPending c false with dispatched := s.dispatched ++ [(c, s.loading)] }
    else s
  | SyncEvent.beginLoad => { s with loading := true }
  | SyncEvent.endLoad => { s with loading := false }

/-- Run a sequence of events. -/
def syncRun (s : SyncState) (evs : List SyncEvent) : SyncState :=
  evs.foldl syncStep s

/-- The state at the start of a load: flag raised, no timer armed, nothing
dispatched yet. -/
def loadStartState : SyncState :=
  { loading := true, pendRes := false, pendExp := false, pendSet := false,
    pendTax := false, dispatched := [] }

/-! ## Helper lemmas -/

/-- A running-sum `reduce` equals the starting value plus the sum of the
mapped elements. -/
theorem foldl_add_eq_sum {α : Type} (f : α → ℚ) :
    ∀ (l : List α) (a : ℚ), l.foldl (fun s x => s + f x) a = a + (l.map f).sum
  | [], a => by simp
  | x :: l, a => by
    rw [List.foldl_cons, foldl_add_eq_sum f l (a + f x), List.map_cons,
      List.sum_cons]
    ring

/-- `calculateTax` spelled out (the `let` chain unfolded). -/
theorem calculateTax_eq (liquidIncome : ℚ) (dependents : ℕ) :
    calculateTax liquidIncome dependents =
      { deduction := max ((dependents : ℚ) * DEPENDENT_DEDUCTION) SIMPLIFIED_DEDUCTION
        taxableIncome := max (liquidIncome -
          max ((dependents : ℚ) * DEPENDENT_DEDUCTION) SIMPLIFIED_DEDUCTION) 0
        taxRate := (findTaxBracket (max (liquidIncome -
          max ((dependents : ℚ) * DEPENDENT_DEDUCTION) SIMPLIFIED_DEDUCTION) 0)).rate
        taxOwed := (jsRound ((max ((max (liquidIncome -
            max ((dependents : ℚ) * DEPENDENT_DEDUCTION) SIMPLIFIED_DEDUCTION) 0) *
            (findTaxBracket (max (liquidIncome -
              max ((dependents : ℚ) * DEPENDENT_DEDUCTION) SIMPLIFIED_DEDUCTION) 0)).rate -
            (findTaxBracket (max (liquidIncome -
              max ((dependents : ℚ) * DEPENDENT_DEDUCTION) SIMPLIFIED_DEDUCTION) 0)).deduction)
            0) * 100) : ℚ) / 100 } := rfl

/-- The selection rule stated by the specification — the first bracket in
ascending order of upper bound whose upper bound strictly exceeds the taxable
income — spelled as a decision chain over the bounds of the code's table. -/
def bracketBySpec (q : ℚ) : TaxBracket :=
  if q < 2428.81 then { maxIncome := some 2428.81, rate := 0, deduction := 182.16 }
  else if q < 2826.66 then { maxIncome := some 2826.66, rate := 0.075, deduction := 182.16 }
  else if q < 3751.05 then { maxIncome := some 3751.05, rate := 0.15, deduction := 394.16 }
  else if q < 4664.68 then { maxIncome := some 4664.68, rate := 0.225, deduction := 675.49 }
  else { maxIncome := none, rate := 0.275, deduction := 908.73 }

/-- `findTaxBracket` implements the specification's selection rule. -/
theorem findTaxBracket_eq_bracketBySpec (q : ℚ) :
    findTaxBracket q = bracketBySpec q := by
  rw [findTaxBracket, TAX_BRACKETS, bracketBySpec]
  by_cases h1 : q < 2428.81
  · rw [List.find?_cons_of_pos _ (by simp [bracketMatches, h1])]
    simp [h1]
  rw [List.find?_cons_of_neg _ (by simp [bracketMatches, h1])]
  by_cases h2 : q < 2826.66
  · rw [List.find?_cons_of_pos _ (by simp [bracketMatches, h2])]
    simp [h1, h2]
  rw [List.find?_cons_of_neg _ (by simp [bracketMatches, h2])]
  by_cases h3 : q < 3751.05
  · rw [List.find?_cons_of_pos _ (by simp [bracketMatches, h3])]
    simp [h1, h2, h3]
  rw [List.find?_cons_of_neg _ (by simp [bracketMatches, h3])]
  by_cases h4 : q < 4664.68
  · rw [List.find?_cons_of_pos _ (by simp [bracketMatches, h4])]
    simp [h1, h2, h3, h4]
  rw [List.find?_cons_of_neg _ (by simp [bracketMatches, h4])]
  rw [List.find?_cons_of_pos _ (by simp [bracketMatches])]
  simp [h1, h2, h3, h4]

/-- `findTaxBracket` at taxable income `0` selects the exempt bracket. -/
theorem findTaxBracket_zero :
    findTaxBracket 0 = { maxIncome := some 2428.81, rate := 0, deduction := 182.16 } := by
  rw [findTaxBracket_eq_bracketBySpec, bracketBySpec]
  norm_num

/-- The deduction is at least the simplified deduction, hence positive. -/
theorem simplified_le_deduction (liquidIncome : ℚ) (dependents : ℕ) :
    SIMPLIFIED_DEDUCTION ≤ (calculateTax liquidIncome dependents).deduction := by
  rw [calculateTax_eq]
  exact le_max_right _ _

/-- When the liquid income is negative the floored taxable income is `0`. -/
theorem taxableIncome_of_neg (liquidIncome : ℚ) (dependents : ℕ)
    (h : liquidIncome < 0) :
    (calculateTax liquidIncome dependents).taxableIncome = 0 := by
  rw [calculateTax_eq]
  have hd : (0:ℚ) ≤ max ((dependents : ℚ) * DEPENDENT_DEDUCTION) SIMPLIFIED_DEDUCTION := by
    refine le_trans ?_ (le_max_right _ _)
    norm_num [SIMPLIFIED_DEDUCTION]
  exact max_eq_right (by linarith)

/-- The rounded tax is nonnegative, since the pre-rounding tax is floored
at `0`. -/
theorem taxOwed_nonneg (liquidIncome : ℚ) (dependents : ℕ) :
    0 ≤ (calculateTax liquidIncome dependents).taxOwed := by
  rw [calculateTax_eq]
  have h : (0:ℚ) ≤ jsRound ((max (max (liquidIncome -
      max ((dependents : ℚ) * DEPENDENT_DEDUCTION) SIMPLIFIED_DEDUCTION) 0 *
      (findTaxBracket (max (liquidIncome -
        max ((dependents : ℚ) * DEPENDENT_DEDUCTION) SIMPLIFIED_DEDUCTION) 0)).rate -
      (findTaxBracket (max (liquidIncome -
        max ((dependents : ℚ) * DEPENDENT_DEDUCTION) SIMPLIFIED_DEDUCTION) 0)).deduction)
      0) * 100) := by
    rw [jsRound]
    have h2 : (0:ℚ) ≤ max (max (liquidIncome -
        max ((dependents : ℚ) * DEPENDENT_DEDUCTION) SIMPLIFIED_DEDUCTION) 0 *
        (findTaxBracket (max (liquidIncome -
          max ((dependents : ℚ) * DEPENDENT_DEDUCTION) SIMPLIFIED_DEDUCTION) 0)).rate -
        (findTaxBracket (max (liquidIncome -
          max ((dependents : ℚ) * DEPENDENT_DEDUCTION) SIMPLIFIED_DEDUCTION) 0)).deduction)
        0 * 100 := by positivity
    exact_mod_cast Int.le_floor.mpr (by push_cast; linarith)
  positivity

/-- With taxable income `0` the computed tax is `0` (the exempt bracket's
negative pre-floor tax is clamped). -/
theorem taxOwed_of_neg (liquidIncome : ℚ) (dependents : ℕ)
    (h : liquidIncome < 0) :
    (calculateTax liquidIncome dependents).taxOwed = 0 := by
  have h0 := taxableIncome_of_neg liquidIncome dependents h
  rw [calculateTax_eq] at h0 ⊢
  simp only at h0 ⊢
  rw [h0, findTaxBracket_zero]
  norm_num [jsRound]

/-! ## Digit-string lemmas -/

/-- The digit character of `d < 10` decodes back to `d`. -/
theorem digitVal_digitChar (d : ℕ) (h : d < 10) : digitVal (digitChar d) = d := by
  interval_cases d <;> rfl

/-- Digit characters are digits. -/
theorem isDigitChar_digitChar (d : ℕ) : isDigitChar (digitChar d) = true := by
  rcases d with _|_|_|_|_|_|_|_|_|d <;> rfl

/-- Appending a digit multiplies the value by ten and adds the digit. -/
theorem digitsToNat_append (xs : List Char) (c : Char) :
    digitsToNat (xs ++ [c]) = 10 * digitsToNat xs + digitVal c := by
  simp [digitsToNat, List.foldl_append]

/-- A leading `'0'` does not change the value of a digit string. -/
theorem digitsToNat_cons_zero (cs : List Char) :
    digitsToNat ('0' :: cs) = digitsToNat cs := rfl

/-- The decimal representation of `n` evaluates back to `n`. -/
theorem digitsToNat_natChars (n : ℕ) : digitsToNat (natChars n) = n := by
  induction n using Nat.strong_induction_on with
  | _ n ih =>
    rw [natChars]
    split
    · rename_i h
      show 10 * 0 + digitVal (digitChar n) = n
      rw [digitVal_digitChar n h]
      omega
    · rename_i h
      rw [digitsToNat_append,
        ih (n / 10) (Nat.div_lt_self (by omega) (by omega)),
        digitVal_digitChar _ (Nat.mod_lt _ (by omega))]
      omega

/-- Every character of `natChars n` is a digit. -/
theorem natChars_all_digits (n : ℕ) : (natChars n).all isDigitChar = true := by
  induction n using Nat.strong_induction_on with
  | _ n ih =>
    rw [natChars]
    split
    · simp [isDigitChar_digitChar]
    · rename_i h
      rw [List.all_append]
      simp [isDigitChar_digitChar,
        ih (n / 10) (Nat.div_lt_self (by omega) (by omega))]

/-- `natChars` is never empty. -/
theorem natChars_ne_nil (n : ℕ) : natChars n ≠ [] := by
  rw [natChars]
  split
  · simp
  · simp

/-- A digit is not a dash, blank, plus sign, or dot. -/
theorem isDigitChar_ne (c : Char) (h : isDigitChar c = true) :
    c ≠ '-' ∧ c ≠ ' ' ∧ c ≠ '+' ∧ c ≠ '.' := by
  refine ⟨?_, ?_, ?_, ?_⟩ <;> intro he <;> rw [he] at h <;> exact absurd h (by decide)

/-- Splitting a dash-free string gives a single chunk. -/
theorem splitOnDash_no_dash (cs : List Char) (h : ∀ c ∈ cs, c ≠ '-') :
    splitOnDash cs = [cs] := by
  induction cs with
  | nil => rfl
  | cons c t ih =>
    rw [splitOnDash, if_neg (h c (List.mem_cons_self c t))]
    rw [ih (fun x hx => h x (List.mem_cons_of_mem c hx))]
    rfl

/-- Splitting around the first dash peels off the dash-free prefix. -/
theorem splitOnDash_append (a b : List Char) (h : ∀ c ∈ a, c ≠ '-') :
    splitOnDash (a ++ '-' :: b) = a :: splitOnDash b := by
  induction a with
  | nil => rw [List.nil_append, splitOnDash, if_pos rfl]
  | cons c t ih =>
    rw [List.cons_append, splitOnDash, if_neg (h c (List.mem_cons_self c t))]
    rw [ih (fun x hx => h x (List.mem_cons_of_mem c hx))]
    rfl

/-- `takeWhile` keeps a list all of whose elements satisfy the predicate. -/
theorem takeWhile_of_all (p : Char → Bool) (l : List Char) (h : l.all p = true) :
    l.takeWhile p = l := by
  induction l with
  | nil => rfl
  | cons c t ih =>
    rw [List.all_cons, Bool.and_eq_true] at h
    rw [List.takeWhile_cons, if_pos h.1, ih h.2]

/-- `dropWhile` empties a list all of whose elements satisfy the predicate. -/
theorem dropWhile_of_all (p : Char → Bool) (l : List Char) (h : l.all p = true) :
    l.dropWhile p = [] := by
  induction l with
  | nil => rfl
  | cons c t ih =>
    rw [List.all_cons, Bool.and_eq_true] at h
    rw [List.dropWhile_cons, if_pos h.1, ih h.2]

/-- The signed value of an unsigned digit run with no fractional part is its
digit value. -/
theorem signedVal_digits (cs : List Char) :
    signedVal false cs [] = ((digitsToNat cs : ℚ)) := by
  rw [signedVal]
  norm_num [show digitsToNat [] = 0 from rfl]

/-- `parseFloat` on a nonempty digit string returns its value. -/
theorem jsParseFloat_digits (cs : List Char) (h1 : cs ≠ [])
    (h2 : cs.all isDigitChar = true) :
    jsParseFloat cs = some ((digitsToNat cs : ℚ)) := by
  obtain ⟨c, t, rfl⟩ : ∃ c t, cs = c :: t := by
    cases cs
    · exact absurd rfl h1
    · exact ⟨_, _, rfl⟩
  have hc : isDigitChar c = true := by
    rw [List.all_cons, Bool.and_eq_true] at h2
    exact h2.1
  obtain ⟨hdash, hspace, hplus, _⟩ := isDigitChar_ne c hc
  have hdw : List.dropWhile (fun x => decide (x = ' ')) (c :: t) = c :: t := by
    rw [List.dropWhile_cons, if_neg (by simp [hspace])]
  simp only [jsParseFloat, hdw]
  rw [show (if (c :: t).headI = '-' ∨ (c :: t).headI = '+' then (c :: t).tail
      else c :: t) = c :: t from if_neg (by simp [List.headI, hdash, hplus])]
  rw [takeWhile_of_all _ _ h2, dropWhile_of_all _ _ h2]
  rw [show (if ([] : List Char).headI = '.' then
      ([] : List Char).tail.takeWhile isDigitChar else []) = [] from if_neg (by decide)]
  rw [if_neg (by simp)]
  rw [show (decide ((c :: t).headI = '-')) = false by simp [List.headI, hdash]]
  rw [signedVal_digits]

/-- `Number` on a nonempty digit string returns its value. -/
theorem jsNumber_digits (cs : List Char) (h1 : cs ≠ [])
    (h2 : cs.all isDigitChar = true) :
    jsNumber cs = some ((digitsToNat cs : ℚ)) := by
  obtain ⟨c, t, rfl⟩ : ∃ c t, cs = c :: t := by
    cases cs
    · exact absurd rfl h1
    · exact ⟨_, _, rfl⟩
  have hc : isDigitChar c = true := by
    rw [List.all_cons, Bool.and_eq_true] at h2
    exact h2.1
  obtain ⟨hdash, hspace, hplus, _⟩ := isDigitChar_ne c hc
  have hdw : List.dropWhile (fun x => decide (x = ' ')) (c :: t) = c :: t := by
    rw [List.dropWhile_cons, if_neg (by simp [hspace])]
  simp only [jsNumber, hdw]
  rw [if_neg (by simp)]
  rw [show (if (c :: t).headI = '-' ∨ (c :: t).headI = '+' then (c :: t).tail
      else c :: t) = c :: t from if_neg (by simp [List.headI, hdash, hplus])]
  rw [takeWhile_of_all _ _ h2, dropWhile_of_all _ _ h2]
  rw [if_pos (show ([] : List Char).isEmpty = true from rfl)]
  rw [if_neg (show ¬((c :: t).isEmpty = true) by simp)]
  rw [show (decide ((c :: t).headI = '-')) = false by simp [List.headI, hdash]]
  rw [signedVal_digits]

/-- Mapping to options and keeping the `some`s (the `map` + `filter` idiom of
the read functions) is `filterMap`. -/
theorem map_filterMap_id {α β : Type} (f : α → Option β) (l : List α) :
    (l.map f).filterMap id = l.filterMap f := by
  induction l with
  | nil => rfl
  | cons a l ih => cases hfa : f a <;> simp [List.filterMap_cons, hfa, ih]

/-- An all-digit string never matches the `YYYY-MM-DD` pattern (its fifth
character would have to be a dash). -/
theorem matchesYMD_all_digits (cs : List Char) (h : cs.all isDigitChar = true) :
    matchesYMD cs = false := by
  rcases cs with _ | ⟨a, _ | ⟨b, _ | ⟨c, _ | ⟨d, _ | ⟨d1, _ | ⟨e, _ | ⟨f, _ |
    ⟨d2, _ | ⟨g, _ | ⟨i, _ | ⟨j, rest⟩⟩⟩⟩⟩⟩⟩⟩⟩⟩⟩ <;>
    first
      | rfl
      | (simp only [List.all_cons, Bool.and_eq_true] at h
         simp [matchesYMD, (isDigitChar_ne d1 h.2.2.2.2.1).1])

/-- `parseDateValue` accepts every `YYYY-MM-DD` string, via `parseLocalDate`. -/
theorem parseDateValue_iso (s : List Char) (h : matchesYMD s = true) :
    parseDateValue (Cell.str s) = some (parseLocalDate s) := by
  have hne : s ≠ [] := by
    intro he
    rw [he] at h
    exact absurd h (by decide)
  simp only [parseDateValue, jsFalsy]
  rw [if_neg (by simpa using hne), if_pos h]

/-- `parseDateValue` accepts every nonzero serial-date number, via
`excelSerialToDate`. -/
theorem parseDateValue_num (q : ℚ) (h : q ≠ 0) :
    parseDateValue (Cell.num q) = some (excelSerialToDate q) := by
  simp only [parseDateValue, jsFalsy]
  rw [if_neg (by simpa using h)]

/-- `parseDateValue` accepts every positive all-digit numeric string, read as
a serial date. -/
theorem parseDateValue_digit_string (cs : List Char) (h1 : cs ≠ [])
    (h2 : cs.all isDigitChar = true) (h3 : 0 < digitsToNat cs) :
    parseDateValue (Cell.str cs) = some (excelSerialToDate ((digitsToNat cs : ℚ))) := by
  simp only [parseDateValue, jsFalsy]
  rw [if_neg (by simpa using h1)]
  rw [if_neg (by simp [matchesYMD_all_digits cs h2])]
  rw [jsParseFloat_digits cs h1 h2]
  simp only
  rw [if_pos (by exact_mod_cast h3)]

/-! ## Concrete fixtures for witnesses and counterexamples -/

/-- A reservation paying the owner 10000.00. -/
def sampleReservation : Reservation where
  id := ['r']
  date := { year := 2025, month0 := 0, day := 1 }
  nights := 3
  total := 14285.71
  ownerAmount := 10000
  adminFee := 4285.71

/-- An expense of 100.00. -/
def sampleExpense : Expense where
  id := ['e']
  date := { year := 2025, month0 := 0, day := 1 }
  amount := 100
  category := none
  notes := none

/-- An expense of 200.00 (larger than a month with no income). -/
def bigExpense : Expense where
  id := ['e']
  date := { year := 2025, month0 := 0, day := 1 }
  amount := 200
  category := none
  notes := none

/-- The store with no data. -/
def emptyStore : StoreState where
  reservations := []
  expenses := []
  settings := defaultSettings
  paidMonths := []

/-- The store after one reservation was added. -/
def oneReservationStore : StoreState where
  reservations := [sampleReservation]
  expenses := []
  settings := defaultSettings
  paidMonths := []

/-- The store after only the split settings changed (0.6/0.4 instead of the
0.7/0.3 defaults, dependents untouched). -/
def splitsChangedStore : StoreState where
  reservations := []
  expenses := []
  settings := { dependents := 0, ownerSplit := 0.6, adminSplit := 0.4 }
  paidMonths := []

/-! ## Claim theorems -/

/-- C2: for every month key, month's reservations, month's expenses and
dependents count, `calculateMonthlyTax` returns the owner-amount sum as
`totalIncome`, the expense-amount sum as `totalDeductions`, their difference
as `liquidIncome`, the `calculateTax (liquidIncome, dependents)` fields for
deduction/taxableIncome/taxRate/taxOwed, and `liquidIncome - taxOwed` as
`profit`; with total income 10000.00, expenses 100.00 and 2 dependents this
yields deduction 607.20, taxable income 9292.80, tax owed 1646.79 and profit
8253.21. -/
theorem calculateMonthlyTax_spec :
    (∀ (month : List Char) (reservations : List Reservation)
      (expenses : List Expense) (dependents : ℕ) (isPaid : Bool),
      (calculateMonthlyTax month reservations expenses dependents isPaid).totalIncome =
        (reservations.map Reservation.ownerAmount).sum ∧
      (calculateMonthlyTax month reservations expenses dependents isPaid).totalDeductions =
        (expenses.map Expense.amount).sum ∧
      (calculateMonthlyTax month reservations expenses dependents isPaid).liquidIncome =
        (reservations.map Reservation.ownerAmount).sum - (expenses.map Expense.amount).sum ∧
      (calculateMonthlyTax month reservations expenses dependents isPaid).deduction =
        (calculateTax ((reservations.map Reservation.ownerAmount).sum -
          (expenses.map Expense.amount).sum) dependents).deduction ∧
      (calculateMonthlyTax month reservations expenses dependents isPaid).taxableIncome =
        (calculateTax ((reservations.map Reservation.ownerAmount).sum -
          (expenses.map Expense.amount).sum) dependents).taxableIncome ∧
      (calculateMonthlyTax month reservations expenses dependents isPaid).taxRate =
        (calculateTax ((reservations.map Reservation.ownerAmount).sum -
          (expenses.map Expense.amount).sum) dependents).taxRate ∧
      (calculateMonthlyTax month reservations expenses dependents isPaid).taxOwed =
        (calculateTax ((reservations.map Reservation.ownerAmount).sum -
          (expenses.map Expense.amount).sum) dependents).taxOwed ∧
      (calculateMonthlyTax month reservations expenses dependents isPaid).profit =
        (calculateMonthlyTax month reservations expenses dependents isPaid).liquidIncome -
          (calculateMonthlyTax month reservations expenses dependents isPaid).taxOwed) ∧
    (calculateMonthlyTax [] [sampleReservation] [sampleExpense] 2 false) =
      { month := [], totalIncome := 10000, totalDeductions := 100, liquidIncome := 9900,
        deduction := 607.20, taxableIncome := 9292.80, taxRate := 0.275,
        taxOwed := 1646.79, profit := 8253.21, isPaid := false } := by
  constructor
  · intro month reservations expenses dependents isPaid
    have hi : (calculateMonthlyTax month reservations expenses dependents isPaid).totalIncome =
        (reservations.map Reservation.ownerAmount).sum := by
      show reservations.foldl (fun sum r => sum + r.ownerAmount) 0 = _
      rw [foldl_add_eq_sum]
      ring
    have hd : (calculateMonthlyTax month reservations expenses dependents isPaid).totalDeductions =
        (expenses.map Expense.amount).sum := by
      show expenses.foldl (fun sum e => sum + e.amount) 0 = _
      rw [foldl_add_eq_sum]
      ring
    refine ⟨hi, hd, ?_⟩
    rw [calculateMonthlyTax] at hi hd ⊢
    simp only at hi hd ⊢
    rw [hi, hd]
    refine ⟨?_, ?_, ?_, ?_, ?_, ?_⟩ <;> first | rfl | trivial
  · rw [calculateMonthlyTax]
    simp only [sampleReservation, sampleExpense, List.foldl_cons, List.foldl_nil,
      calculateTax_eq]
    rw [findTaxBracket_eq_bracketBySpec]
    have hded : max ((2:ℕ) * DEPENDENT_DEDUCTION : ℚ) SIMPLIFIED_DEDUCTION = 607.20 := by
      rw [DEPENDENT_DEDUCTION, SIMPLIFIED_DEDUCTION]
      norm_num
    norm_num [DEPENDENT_DEDUCTION, SIMPLIFIED_DEDUCTION, bracketBySpec, jsRound]

/-- C3: the tax owed is never negative, and for negative liquid income the
taxable income is floored at `0`, the tax owed is `0`, and the monthly
summary's profit equals the (negative) liquid income. -/
theorem tax_never_negative :
    (∀ (liquidIncome : ℚ) (dependents : ℕ),
      0 ≤ (calculateTax liquidIncome dependents).taxOwed ∧
      (liquidIncome < 0 →
        (calculateTax liquidIncome dependents).taxableIncome = 0 ∧
        (calculateTax liquidIncome dependents).taxOwed = 0)) ∧
    (∀ (month : List Char) (reservations : List Reservation)
      (expenses : List Expense) (dependents : ℕ) (isPaid : Bool),
      (calculateMonthlyTax month reservations expenses dependents isPaid).liquidIncome < 0 →
      (calculateMonthlyTax month reservations expenses dependents isPaid).profit =
        (calculateMonthlyTax month reservations expenses dependents isPaid).liquidIncome) := by
  constructor
  · intro liquidIncome dependents
    exact ⟨taxOwed_nonneg liquidIncome dependents, fun h =>
      ⟨taxableIncome_of_neg liquidIncome dependents h,
       taxOwed_of_neg liquidIncome dependents h⟩⟩
  · intro month reservations expenses dependents isPaid h
    have h0 : (calculateMonthlyTax month reservations expenses dependents isPaid).taxOwed = 0 := by
      rw [calculateMonthlyTax] at h ⊢
      simp only at h ⊢
      exact taxOwed_of_neg _ dependents h
    rw [calculateMonthlyTax] at h0 ⊢
    simp only at h0 ⊢
    rw [h0]
    ring

/-- Witness for C3 at liquid income `-200` with 3 dependents, and a monthly
summary whose expenses (200.00) exceed its income (0). -/
theorem tax_never_negative_witness :
    ((-200 : ℚ) < 0 ∧
      (calculateTax (-200) 3).taxableIncome = 0 ∧ (calculateTax (-200) 3).taxOwed = 0) ∧
    ((calculateMonthlyTax [] [] [bigExpense] 0 false).liquidIncome < 0 ∧
      (calculateMonthlyTax [] [] [bigExpense] 0 false).profit =
       (calculateMonthlyTax [] [] [bigExpense] 0 false).liquidIncome) := by
  have hneg : ((-200:ℚ)) < 0 := by norm_num
  have hm : (calculateMonthlyTax [] [] [bigExpense] 0 false).liquidIncome < 0 := by
    rw [calculateMonthlyTax]
    norm_num [bigExpense]
  exact ⟨⟨hneg, (tax_never_negative.1 (-200) 3).2 hneg⟩,
    ⟨hm, tax_never_negative.2 [] [] _ 0 false hm⟩⟩

/-- C7: `markMonthAsPaid` and `markMonthAsUnpaid` are idempotent, and
unmarking a freshly marked month restores the initial state when the month
was not already paid. -/
theorem paidMonths_mark_unmark (paidMonths : List (List Char)) (month : List Char) :
    markMonthAsPaid month (markMonthAsPaid month paidMonths) =
      markMonthAsPaid month paidMonths ∧
    markMonthAsUnpaid month (markMonthAsUnpaid month paidMonths) =
      markMonthAsUnpaid month paidMonths ∧
    (month ∉ paidMonths →
      markMonthAsUnpaid month (markMonthAsPaid month paidMonths) = paidMonths) := by
  refine ⟨?_, ?_, ?_⟩
  · by_cases h : month ∈ paidMonths
    · simp [markMonthAsPaid, h]
    · simp [markMonthAsPaid, h]
  · simp only [markMonthAsUnpaid, List.filter_filter]
    congr 1
    funext a
    exact Bool.and_self _
  · intro h
    rw [markMonthAsPaid, if_neg h, markMonthAsUnpaid, List.filter_append]
    have h1 : paidMonths.filter (fun m => m ≠ month) = paidMonths := by
      rw [List.filter_eq_self]
      intro a ha
      simp only [ne_eq, decide_eq_true_eq]
      exact fun he => h (he ▸ ha)
    simp only [h1, List.filter_cons, List.filter_nil]
    simp

/-- Witness for C7's restore part: marking then unmarking `2025-01` over a
paid set not containing it gives back the original set. -/
theorem paidMonths_mark_unmark_witness :
    ['2', '0', '2', '5', '-', '0', '1'] ∉ [['2', '0', '2', '4', '-', '1', '2']] ∧
    markMonthAsUnpaid ['2', '0', '2', '5', '-', '0', '1']
      (markMonthAsPaid ['2', '0', '2', '5', '-', '0', '1']
        [['2', '0', '2', '4', '-', '1', '2']]) =
      [['2', '0', '2', '4', '-', '1', '2']] := by
  have h : ['2', '0', '2', '5', '-', '0', '1'] ∉ [['2', '0', '2', '4', '-', '1', '2']] := by
    decide
  exact ⟨h, (paidMonths_mark_unmark [['2', '0', '2', '4', '-', '1', '2']]
    ['2', '0', '2', '5', '-', '0', '1']).2.2 h⟩

/-- `getAllMonths` of no data is empty. -/
theorem getAllMonths_nil : getAllMonths [] [] = [] := by
  simp [getAllMonths]

/-- C10: with no reservations and no expenses, `saveTaxData` issues no remote
operation — in particular it neither clears nor rewrites the tax range. -/
theorem saveTaxData_empty_no_ops (dependents : ℕ) (paidMonths : List (List Char)) :
    saveTaxData [] [] dependents paidMonths = [] := by
  rw [saveTaxData]
  simp [getAllMonths_nil]

/-- C4 counterexample, part of the `corrected` verdict: adding one
reservation — with expenses, settings and paid months untouched — schedules a
tax-row write, because `useDataSync` registers a second debounced
`saveTaxData` keyed on reservation ids, expense ids and the dependents count. -/
theorem taxWrite_on_reservation_mutation :
    (scheduledSaves emptyStore oneReservationStore).tax = true ∧
    emptyStore.paidMonths = oneReservationStore.paidMonths ∧
    emptyStore.expenses = oneReservationStore.expenses ∧
    emptyStore.settings = oneReservationStore.settings := by
  refine ⟨?_, rfl, rfl, rfl⟩
  simp only [scheduledSaves, decide_eq_true_eq, ne_eq]
  intro h
  have hres := congrArg StoreState.reservations h
  simp [emptyStore, oneReservationStore] at hres

/-- C4 as amended: the tax rows are rescheduled on every store change the
hook observes — the second debounced `saveTaxData` is keyed on a dependency
array rebuilt each render, which `Object.is` never equates — so a mutation
to Reservations, Expenses, Settings (even one touching only the splits), or
PaidMonths alone each schedules a tax-row write; one is scheduled exactly
when some observed slice changed. -/
theorem taxWrite_on_any_observed_change (prev cur : StoreState) :
    ((scheduledSaves prev cur).tax = true ↔ prev ≠ cur) ∧
    (prev.reservations ≠ cur.reservations → (scheduledSaves prev cur).tax = true) ∧
    (prev.expenses ≠ cur.expenses → (scheduledSaves prev cur).tax = true) ∧
    (prev.settings ≠ cur.settings → (scheduledSaves prev cur).tax = true) ∧
    (prev.paidMonths ≠ cur.paidMonths → (scheduledSaves prev cur).tax = true) := by
  have hiff : (scheduledSaves prev cur).tax = true ↔ prev ≠ cur := by
    simp [scheduledSaves]
  refine ⟨hiff, ?_, ?_, ?_, ?_⟩ <;> intro h <;> rw [hiff] <;>
    exact fun he => h (by rw [he])

/-- Witness for C4 as amended: a settings mutation touching only the split
fractions (dependents unchanged, so even the value of `taxDependencies` is
untouched) schedules a tax-row write. -/
theorem taxWrite_on_any_observed_change_witness :
    emptyStore.settings ≠ splitsChangedStore.settings ∧
    emptyStore.reservations = splitsChangedStore.reservations ∧
    emptyStore.expenses = splitsChangedStore.expenses ∧
    emptyStore.paidMonths = splitsChangedStore.paidMonths ∧
    emptyStore.settings.dependents = splitsChangedStore.settings.dependents ∧
    (scheduledSaves emptyStore splitsChangedStore).tax = true := by
  have h : emptyStore.settings ≠ splitsChangedStore.settings := by
    intro he
    have hos := congrArg AppSettings.ownerSplit he
    simp only [emptyStore, splitsChangedStore, defaultSettings] at hos
    norm_num at hos
  exact ⟨h, rfl, rfl, rfl, rfl,
    (taxWrite_on_any_observed_change emptyStore splitsChangedStore).2.2.2.1 h⟩

/-- C5 counterexample, part of the `corrected` verdict: a debounce timer
armed by a mutation *before* the load begins fires during the load window —
the save callback never rechecks the read-lock flag — so a write is
dispatched while the flag is raised (the `true` tag on the logged dispatch). -/
theorem dispatch_during_load_from_stale_timer :
    (syncRun
      { loading := false, pendRes := false, pendExp := false, pendSet := false,
        pendTax := false, dispatched := [] }
      [SyncEvent.mutate Collection.reservations, SyncEvent.beginLoad,
        SyncEvent.fire Collection.reservations]).dispatched =
      [(Collection.reservations, true)] := by
  decide

/-- Invariant: while the read-lock flag is raised no timer is armed, provided
none was armed when it went up and no new load begins. -/
def loadQuiet (s : SyncState) : Prop :=
  s.loading = true → s.pendRes = false ∧ s.pendExp = false ∧
    s.pendSet = false ∧ s.pendTax = false

/-- Every dispatch a run from a quiet state logs is tagged with the flag
lowered, as long as no `beginLoad` occurs and every previously logged
dispatch was also tagged lowered. -/
theorem syncRun_dispatch_flag_down (evs : List SyncEvent) :
    ∀ s : SyncState, loadQuiet s → SyncEvent.beginLoad ∉ evs →
    (∀ p ∈ s.dispatched, p.2 = false) →
    ∀ p ∈ (syncRun s evs).dispatched, p.2 = false := by
  induction evs with
  | nil => intro s _ _ hd; exact hd
  | cons e evs ih =>
    intro s hq hb hd
    have hb' : SyncEvent.beginLoad ∉ evs := fun h => hb (List.mem_cons_of_mem _ h)
    have hbe : e ≠ SyncEvent.beginLoad := fun h => hb (h ▸ List.mem_cons_self _ _)
    rw [syncRun, List.foldl_cons]
    cases e with
    | mutate c =>
      refine ih _ ?_ hb' ?_
      · intro hl
        cases c <;> simp only [syncStep, SyncState.setPending] <;>
          simp only [syncStep, SyncState.setPending] at hl <;>
          rcases hq hl with ⟨h1, h2, h3, h4⟩ <;> simp_all
      · cases c <;> exact hd
    | fire c =>
      rw [syncStep]
      by_cases hp : s.pending c = true
      · rw [if_pos hp]
        have hflag : s.loading = false := by
          by_contra hl
          rw [Bool.not_eq_false] at hl
          rcases hq hl with ⟨h1, h2, h3, h4⟩
          cases c <;> simp [SyncState.pending, h1, h2, h3, h4] at hp
        refine ih _ ?_ hb' ?_
        · intro hl
          cases c <;> simp only [SyncState.setPending] at hl <;> simp [hflag] at hl
        · intro p hp'
          cases c <;>
            simp only [SyncState.setPending, List.mem_append, List.mem_singleton] at hp' <;>
            rcases hp' with h | h
          · exact hd p h
          · rw [h, hflag]
          · exact hd p h
          · rw [h, hflag]
          · exact hd p h
          · rw [h, hflag]
          · exact hd p h
          · rw [h, hflag]
      · rw [if_neg hp]
        exact ih _ hq hb' hd
    | beginLoad => exact absurd rfl hbe
    | endLoad =>
      refine ih _ ?_ hb' hd
      intro hl
      simp [syncStep] at hl

/-- C5 as amended: a mutation while the read-lock flag is raised arms no
timer and dispatches nothing; and starting a load with no timer armed, no
debounced write at all is dispatched while the flag stays raised (a write
already pending when the flag went up may still fire during the window). -/
theorem no_dispatch_while_loading :
    (∀ (s : SyncState) (c : Collection), s.loading = true →
      (syncStep s (SyncEvent.mutate c)).pending c = false ∧
      (syncStep s (SyncEvent.mutate c)).dispatched = s.dispatched) ∧
    (∀ evs : List SyncEvent, SyncEvent.beginLoad ∉ evs →
      ∀ p ∈ (syncRun loadStartState evs).dispatched, p.2 = false) := by
  constructor
  · intro s c hl
    constructor
    · cases c <;> simp [syncStep, SyncState.setPending, SyncState.pending, hl]
    · cases c <;> simp [syncStep, SyncState.setPending]
  · intro evs hb
    refine syncRun_dispatch_flag_down evs loadStartState ?_ hb ?_
    · intro _
      exact ⟨rfl, rfl, rfl, rfl⟩
    · intro p hp
      simp [loadStartState] at hp

/-- Witness for C5 as amended: in the window of `loadStartState`, a trace
that mutates and fires reservations during the load, ends the load, then
mutates and fires expenses, dispatches only with the flag lowered. -/
theorem no_dispatch_while_loading_witness :
    ({ loading := true, pendRes := false, pendExp := false, pendSet := false,
        pendTax := false, dispatched := [] } : SyncState).loading = true ∧
    SyncEvent.beginLoad ∉ [SyncEvent.mutate Collection.reservations,
      SyncEvent.fire Collection.reservations, SyncEvent.endLoad,
      SyncEvent.mutate Collection.expenses, SyncEvent.fire Collection.expenses] ∧
    ∀ p ∈ (syncRun loadStartState [SyncEvent.mutate Collection.reservations,
      SyncEvent.fire Collection.reservations, SyncEvent.endLoad,
      SyncEvent.mutate Collection.expenses,
      SyncEvent.fire Collection.expenses]).dispatched, p.2 = false := by
  refine ⟨rfl, by decide, ?_⟩
  exact no_dispatch_while_loading.2 _ (by decide)

/-- C1 counterexample, part of the `corrected` verdict: the code's lowest
bracket carries rate 0 (not 7.5%), and at taxable income 2428.82 — one cent
above the boundary, reached from `calculateTax 3036.02 0` — the returned rate
is 7.5%, not the 15% the claim states. -/
theorem bracket_table_shifted :
    TAX_BRACKETS.head? =
      some { maxIncome := some 2428.81, rate := 0, deduction := 182.16 } ∧
    ¬(TAX_BRACKETS.head?.map TaxBracket.rate = some 0.075) ∧
    (calculateTax 3036.02 0).taxableIncome = 2428.82 ∧
    (calculateTax 3036.02 0).taxRate = 0.075 ∧
    ¬(calculateTax 3036.02 0).taxRate = 0.15 := by
  have ht : (calculateTax 3036.02 0).taxableIncome = 2428.82 := by
    rw [calculateTax_eq]
    simp only [SIMPLIFIED_DEDUCTION, DEPENDENT_DEDUCTION]
    norm_num
  have hr : (calculateTax 3036.02 0).taxRate = 0.075 := by
    rw [calculateTax_eq]
    simp only [SIMPLIFIED_DEDUCTION, DEPENDENT_DEDUCTION]
    rw [show max ((3036.02:ℚ) - max ((0:ℕ) * (189.59:ℚ)) 607.20) 0 = 2428.82 by norm_num]
    rw [findTaxBracket_eq_bracketBySpec, bracketBySpec]
    norm_num
  refine ⟨rfl, ?_, ht, hr, ?_⟩
  · simp only [TAX_BRACKETS, List.head?, Option.map]
    intro hcontra
    rw [Option.some_inj] at hcontra
    norm_num at hcontra
  · rw [hr]
    norm_num

/-- C1 as amended: for every nonnegative taxable income `calculateTax` uses
the first bracket (ascending by upper bound) whose upper bound strictly
exceeds it — over the code's table, whose lowest bracket is
`≤ 2428.81 → 0% / 182.16`; at taxable income 2428.81 exactly the returned
rate is 7.5% with tax owed 0.0, and one cent above the rate is still 7.5%. -/
theorem bracket_selection_spec (taxableIncome : ℚ) (_h : 0 ≤ taxableIncome) :
    findTaxBracket taxableIncome = bracketBySpec taxableIncome ∧
    (calculateTax 3036.01 0).taxableIncome = 2428.81 ∧
    (calculateTax 3036.01 0).taxRate = 0.075 ∧
    (calculateTax 3036.01 0).taxOwed = 0 ∧
    (calculateTax 3036.02 0).taxRate = 0.075 := by
  refine ⟨findTaxBracket_eq_bracketBySpec taxableIncome, ?_, ?_, ?_, ?_⟩
  · rw [calculateTax_eq]
    simp only [SIMPLIFIED_DEDUCTION, DEPENDENT_DEDUCTION]
    norm_num
  · rw [calculateTax_eq]
    simp only [SIMPLIFIED_DEDUCTION, DEPENDENT_DEDUCTION]
    rw [show max ((3036.01:ℚ) - max ((0:ℕ) * (189.59:ℚ)) 607.20) 0 = 2428.81 by norm_num]
    rw [findTaxBracket_eq_bracketBySpec, bracketBySpec]
    norm_num
  · rw [calculateTax_eq]
    simp only [SIMPLIFIED_DEDUCTION, DEPENDENT_DEDUCTION]
    rw [show max ((3036.01:ℚ) - max ((0:ℕ) * (189.59:ℚ)) 607.20) 0 = 2428.81 by norm_num]
    rw [findTaxBracket_eq_bracketBySpec, bracketBySpec]
    norm_num [jsRound]
  · rw [calculateTax_eq]
    simp only [SIMPLIFIED_DEDUCTION, DEPENDENT_DEDUCTION]
    rw [show max ((3036.02:ℚ) - max ((0:ℕ) * (189.59:ℚ)) 607.20) 0 = 2428.82 by norm_num]
    rw [findTaxBracket_eq_bracketBySpec, bracketBySpec]
    norm_num

/-- Witness for C1 as amended at taxable income 3000 (the 27.5% bracket). -/
theorem bracket_selection_spec_witness :
    (0:ℚ) ≤ 3000 ∧ findTaxBracket 3000 = bracketBySpec 3000 ∧
    (bracketBySpec 3000).rate = 0.15 := by
  refine ⟨by norm_num, (bracket_selection_spec 3000 (by norm_num)).1, ?_⟩
  rw [bracketBySpec]
  norm_num

/-- C9: `readSettings` is total with exactly the three settings fields
(enforced by the `AppSettings` record it folds over): rows with an unknown
key leave the accumulated settings untouched, a missing or unparsable value
writes the default back, and a lone parsable split cell yields splits that
do not sum to 1. -/
theorem readSettings_spec :
    (∀ (settings : AppSettings) (row : List Cell),
      row.getD 0 Cell.missing ≠ Cell.str dependentsKey →
      row.getD 0 Cell.missing ≠ Cell.str ownerSplitKey →
      row.getD 0 Cell.missing ≠ Cell.str adminSplitKey →
      applySettingsRow settings row = settings) ∧
    readSettings [] = defaultSettings ∧
    (∀ rows : List (List Cell), readSettings rows =
      rows.foldl applySettingsRow defaultSettings) ∧
    (∀ settings : AppSettings,
      applySettingsRow settings [Cell.str dependentsKey] =
        { settings with dependents := 0 } ∧
      applySettingsRow settings [Cell.str ownerSplitKey, Cell.str ['a', 'b', 'c']] =
        { settings with ownerSplit := 0.7 } ∧
      applySettingsRow settings [Cell.str adminSplitKey, Cell.missing] =
        { settings with adminSplit := 0.3 }) ∧
    ((readSettings [[Cell.str ownerSplitKey, Cell.num 0.6]]).ownerSplit = 0.6 ∧
      (readSettings [[Cell.str ownerSplitKey, Cell.num 0.6]]).adminSplit = 0.3 ∧
      (readSettings [[Cell.str ownerSplitKey, Cell.num 0.6]]).ownerSplit +
        (readSettings [[Cell.str ownerSplitKey, Cell.num 0.6]]).adminSplit ≠ 1) := by
  have hv : orDefault (jsParseFloatCell (Cell.num 0.6)) 0.7 = 0.6 := by
    rw [show jsParseFloatCell (Cell.num 0.6) = some 0.6 from rfl]
    simp only [orDefault]
    rw [if_neg (by norm_num)]
  have hsplit : readSettings [[Cell.str ownerSplitKey, Cell.num 0.6]] =
      { defaultSettings with ownerSplit := 0.6 } := by
    rw [readSettings, List.foldl_cons, List.foldl_nil, applySettingsRow]
    simp only [List.getD_cons_zero, List.getD_cons_succ]
    rw [if_neg (by decide), if_pos trivial, hv]
  refine ⟨?_, rfl, fun rows => rfl, ?_, ?_⟩
  · intro settings row h1 h2 h3
    simp only [applySettingsRow]
    rw [if_neg h1, if_neg h2, if_neg h3]
  · intro settings
    refine ⟨?_, ?_, ?_⟩
    · rw [applySettingsRow]
      simp only [List.getD_cons_zero, List.getD_cons_succ, List.getD_nil]
      rw [if_pos trivial]
      rfl
    · rw [applySettingsRow]
      simp only [List.getD_cons_zero, List.getD_cons_succ]
      rw [if_neg (by decide), if_pos trivial]
      rfl
    · rw [applySettingsRow]
      simp only [List.getD_cons_zero, List.getD_cons_succ]
      rw [if_neg (by decide), if_neg (by decide), if_pos trivial]
      rfl
  · rw [hsplit]
    refine ⟨rfl, rfl, ?_⟩
    show (0.6 : ℚ) + 0.3 ≠ 1
    norm_num

/-- Witness for C9's unknown-key part: a numeric key cell matches no settings
key, so the row is ignored. -/
theorem readSettings_spec_witness :
    ([Cell.num 5].getD 0 Cell.missing ≠ Cell.str dependentsKey ∧
     [Cell.num 5].getD 0 Cell.missing ≠ Cell.str ownerSplitKey ∧
     [Cell.num 5].getD 0 Cell.missing ≠ Cell.str adminSplitKey) ∧
    applySettingsRow defaultSettings [Cell.num 5] = defaultSettings := by
  refine ⟨⟨?_, ?_, ?_⟩, ?_⟩
  · intro h; cases h
  · intro h; cases h
  · intro h; cases h
  · exact readSettings_spec.1 defaultSettings [Cell.num 5]
      (fun h => by cases h) (fun h => by cases h) (fun h => by cases h)

/-- C6: the reservation and expense reads are exactly the per-row parses
that succeed — a row whose date cell fails to parse is skipped, the rest are
kept — and the date parser accepts ISO `YYYY-MM-DD` strings, serial-date
numbers, and positive numeric strings, while rejecting malformed and missing
cells; the reads are total functions, so one bad row never fails the read. -/
theorem readRows_skip_malformed :
    (∀ rows : List (List Cell), readReservations rows =
      rows.enum.filterMap (fun p =>
        (parseDateValue (p.2.getD 0 Cell.missing)).map (buildReservation p.1 p.2))) ∧
    (∀ rows : List (List Cell), readExpenses rows =
      rows.enum.filterMap (fun p =>
        (parseDateValue (p.2.getD 0 Cell.missing)).map (buildExpense p.1 p.2))) ∧
    (∀ s : List Char, matchesYMD s = true →
      parseDateValue (Cell.str s) = some (parseLocalDate s)) ∧
    (∀ q : ℚ, q ≠ 0 → parseDateValue (Cell.num q) = some (excelSerialToDate q)) ∧
    (∀ cs : List Char, cs ≠ [] → cs.all isDigitChar = true → 0 < digitsToNat cs →
      parseDateValue (Cell.str cs) = some (excelSerialToDate ((digitsToNat cs : ℚ)))) ∧
    parseDateValue (Cell.str ['n', 'o', 't', '-', 'a', '-', 'd', 'a', 't', 'e']) = none ∧
    parseDateValue Cell.missing = none := by
  refine ⟨?_, ?_, parseDateValue_iso, parseDateValue_num,
    parseDateValue_digit_string, ?_, rfl⟩
  · intro rows
    rw [readReservations, map_filterMap_id]
    congr 1
    funext p
    cases hp : parseDateValue (p.2.getD 0 Cell.missing) <;> simp [hp]
  · intro rows
    rw [readExpenses, map_filterMap_id]
    congr 1
    funext p
    cases hp : parseDateValue (p.2.getD 0 Cell.missing) <;> simp [hp]
  · rfl

/-- Witness for C6 at an ISO date string, the serial number 45000, and the
numeric string `"45"`. -/
theorem readRows_skip_malformed_witness :
    (matchesYMD ['2', '0', '2', '4', '-', '0', '5', '-', '1', '3'] = true ∧
      parseDateValue (Cell.str ['2', '0', '2', '4', '-', '0', '5', '-', '1', '3']) =
        some (parseLocalDate ['2', '0', '2', '4', '-', '0', '5', '-', '1', '3'])) ∧
    ((45000 : ℚ) ≠ 0 ∧
      parseDateValue (Cell.num 45000) = some (excelSerialToDate 45000)) ∧
    (['4', '5'] ≠ ([] : List Char) ∧ ['4', '5'].all isDigitChar = true ∧
      0 < digitsToNat ['4', '5'] ∧
      parseDateValue (Cell.str ['4', '5']) =
        some (excelSerialToDate ((digitsToNat ['4', '5'] : ℚ)))) := by
  refine ⟨⟨by decide, readRows_skip_malformed.2.2.1 _ (by decide)⟩,
    ⟨by norm_num, readRows_skip_malformed.2.2.2.1 45000 (by norm_num)⟩,
    ⟨by decide, by decide, by decide,
      readRows_skip_malformed.2.2.2.2.1 _ (by decide) (by decide) (by decide)⟩⟩

/-- `natChars` contains no dash. -/
theorem natChars_no_dash (n : ℕ) : ∀ c ∈ natChars n, c ≠ '-' := by
  intro c hc
  have h := natChars_all_digits n
  rw [List.all_eq_true] at h
  exact (isDigitChar_ne c (h c hc)).1

/-- Padding with a leading zero keeps a digit string's value, digits and
nonemptiness. -/
theorem padStart2_natChars (m : ℕ) :
    digitsToNat (padStart2 (natChars m)) = m ∧
    (padStart2 (natChars m)).all isDigitChar = true ∧
    padStart2 (natChars m) ≠ [] := by
  rw [padStart2]
  split
  · rename_i hl
    have h1 : (natChars m).length = 1 := by
      have := natChars_ne_nil m
      cases h : natChars m with
      | nil => exact absurd h this
      | cons a t =>
        rw [h] at hl
        simp only [List.length_cons] at hl ⊢
        omega
    rw [h1]
    refine ⟨?_, ?_, ?_⟩
    · show digitsToNat ('0' :: natChars m) = m
      rw [digitsToNat_cons_zero, digitsToNat_natChars]
    · show ('0' :: natChars m).all isDigitChar = true
      rw [List.all_cons, Bool.and_eq_true]
      exact ⟨by decide, natChars_all_digits m⟩
    · show '0' :: natChars m ≠ []
      simp
  · exact ⟨digitsToNat_natChars m, natChars_all_digits m, natChars_ne_nil m⟩

/-- A nonnegative integer below twelve is its own floor remainder by twelve,
with zero quotient. -/
theorem fdiv_emod_twelve (a : ℤ) (h0 : 0 ≤ a) (h1 : a < 12) :
    a.fdiv 12 = 0 ∧ a.emod 12 = a := by
  constructor
  · rw [Int.fdiv_eq_ediv _ (by norm_num)]
    exact Int.ediv_eq_zero_of_lt h0 h1
  · exact Int.emod_eq_of_lt h0 h1

/-- C8 counterexample, part of the `corrected` verdict: for the JS date with
local year 50 the round trip fails — `formatMonth` yields `"50-01"` and
`parseMonth` feeds `50` back to `new Date(50, 0, 1)`, which remaps two-digit
years, producing local year 1950 ≠ 50. -/
theorem parseMonth_formatMonth_year50 :
    parseMonth (formatMonth { year := 50, month0 := 0, day := 1 }) =
      some { year := 1950, month0 := 0, day := 1 } ∧
    (1950 : ℤ) ≠ ({ year := 50, month0 := 0, day := 1 } : JSDate).year := by
  have h50 : natChars 50 = ['5', '0'] := by
    rw [natChars, dif_neg (by omega)]
    rw [show (50:ℕ) / 10 = 5 from rfl, show (50:ℕ) % 10 = 0 from rfl]
    rw [natChars, dif_pos (by omega)]
    rfl
  have h1 : natChars 1 = ['1'] := by
    rw [natChars, dif_pos (by omega)]
    rfl
  have hform : formatMonth { year := 50, month0 := 0, day := 1 } =
      ['5', '0', '-', '0', '1'] := by
    show intChars 50 ++ '-' :: padStart2 (intChars (0 + 1)) = _
    rw [intChars, if_neg (by norm_num), intChars, if_neg (by norm_num)]
    rw [show ((50:ℤ)).toNat = 50 from rfl, show ((0:ℤ) + 1).toNat = 1 from rfl]
    rw [h50, h1, padStart2, if_pos (by norm_num)]
    rfl
  constructor
  · rw [hform, parseMonth]
    rw [show splitOnDash ['5', '0', '-', '0', '1'] = [['5', '0'], ['0', '1']] from rfl]
    have hn1 : jsNumber ['5', '0'] = some (((50:ℕ) : ℚ)) := by
      rw [jsNumber_digits _ (by decide) (by decide)]
      norm_num [show digitsToNat ['5', '0'] = 50 from rfl]
    have hn2 : jsNumber ['0', '1'] = some (((1:ℕ) : ℚ)) := by
      rw [jsNumber_digits _ (by decide) (by decide)]
      norm_num [show digitsToNat ['0', '1'] = 1 from rfl]
    simp only [List.map_cons, List.map_nil, hn1, hn2, List.getD_cons_zero,
      List.getD_cons_succ]
    have ht1 : jsTrunc (((50:ℕ) : ℚ)) = (50 : ℤ) := by
      rw [jsTrunc, if_neg (not_lt.mpr (by positivity)), Int.floor_natCast]
      norm_num
    have ht2 : jsTrunc ((((1:ℕ) : ℚ)) - 1) = 0 := by
      rw [jsTrunc, if_neg (by norm_num)]
      norm_num
    rw [ht1, ht2]
    simp only [jsNewDateMonth]
    rw [if_pos (by norm_num)]
    norm_num [show (0:ℤ).fdiv 12 = 0 from rfl, show (0:ℤ).emod 12 = 0 from rfl,
      JSDate.mk.injEq]
  · norm_num

/-- C8 as amended: `formatMonth` reads only the local-calendar year and month
of its argument, and for every date with a four-or-more-digit year
(`100 ≤ year`; JS `new Date` remaps two-digit years) and a valid month,
`parseMonth ∘ formatMonth` restores the local year and month exactly. -/
theorem formatMonth_parseMonth_roundtrip (d : JSDate) (hy : 100 ≤ d.year)
    (hm0 : 0 ≤ d.month0) (hm1 : d.month0 ≤ 11) :
    (∀ e : JSDate, e.year = d.year → e.month0 = d.month0 →
      formatMonth e = formatMonth d) ∧
    parseMonth (formatMonth d) =
      some { year := d.year, month0 := d.month0, day := 1 } := by
  constructor
  · intro e h1 h2
    rw [formatMonth, formatMonth, h1, h2]
  have hYv : (d.year.toNat : ℤ) = d.year := Int.toNat_of_nonneg (by omega)
  have hMv : ((d.month0 + 1).toNat : ℤ) = d.month0 + 1 := Int.toNat_of_nonneg (by omega)
  obtain ⟨hp1, hp2, hp3⟩ := padStart2_natChars (d.month0 + 1).toNat
  have hform : formatMonth d =
      natChars d.year.toNat ++ '-' :: padStart2 (natChars (d.month0 + 1).toNat) := by
    rw [formatMonth, intChars, if_neg (by omega), intChars, if_neg (by omega)]
  have hnodash : ∀ c ∈ padStart2 (natChars (d.month0 + 1).toNat), c ≠ '-' := by
    intro c hc
    rw [List.all_eq_true] at hp2
    exact (isDigitChar_ne c (hp2 c hc)).1
  have hsplit : splitOnDash (formatMonth d) =
      [natChars d.year.toNat, padStart2 (natChars (d.month0 + 1).toNat)] := by
    rw [hform, splitOnDash_append _ _ (natChars_no_dash _),
      splitOnDash_no_dash _ hnodash]
  have hA : jsNumber (natChars d.year.toNat) = some ((d.year.toNat : ℚ)) := by
    rw [jsNumber_digits _ (natChars_ne_nil _) (natChars_all_digits _),
      digitsToNat_natChars]
  have hB : jsNumber (padStart2 (natChars (d.month0 + 1).toNat)) =
      some (((d.month0 + 1).toNat : ℚ)) := by
    rw [jsNumber_digits _ hp3 hp2, hp1]
  have htA : jsTrunc ((d.year.toNat : ℚ)) = d.year := by
    rw [jsTrunc, if_neg (not_lt.mpr (by positivity)), Int.floor_natCast, hYv]
  have hM1 : 1 ≤ (d.month0 + 1).toNat := by omega
  have htB : jsTrunc (((d.month0 + 1).toNat : ℚ) - 1) = d.month0 := by
    have hq : (1:ℚ) ≤ ((d.month0 + 1).toNat : ℚ) := by exact_mod_cast hM1
    rw [jsTrunc, if_neg (not_lt.mpr (by linarith))]
    rw [show (((d.month0 + 1).toNat : ℚ) - 1) =
      ((((d.month0 + 1).toNat : ℤ) - 1 : ℤ) : ℚ) by push_cast; ring]
    rw [Int.floor_intCast]
    omega
  rw [parseMonth, hsplit]
  simp only [List.map_cons, List.map_nil, hA, hB, List.getD_cons_zero,
    List.getD_cons_succ]
  rw [htA, htB]
  obtain ⟨hf, he⟩ := fdiv_emod_twelve d.month0 hm0 (by omega)
  rw [jsNewDateMonth]
  simp only [if_neg (show ¬(0 ≤ d.year ∧ d.year ≤ 99) by omega), hf, he]
  simp only [Option.some.injEq, JSDate.mk.injEq]
  exact ⟨by omega, trivial, trivial⟩

/-- Witness for C8 as amended at the local date 2025-05-13. -/
theorem formatMonth_parseMonth_roundtrip_witness :
    ((100:ℤ) ≤ 2025 ∧ (0:ℤ) ≤ 4 ∧ (4:ℤ) ≤ 11) ∧
    parseMonth (formatMonth { year := 2025, month0 := 4, day := 13 }) =
      some { year := 2025, month0 := 4, day := 1 } := by
  refine ⟨⟨by norm_num, by norm_num, by norm_num⟩, ?_⟩
  exact (formatMonth_parseMonth_roundtrip { year := 2025, month0 := 4, day := 13 }
    (by norm_num) (by norm_num) (by norm_num)).2

end Airbnb
